import Mathlib

/-!
Verification of the watchlist app's fundamentals normalizer and metrics
aggregator.

Shallow embedding of `src/fundamentals.py` (and, for the metrics aggregator
whose module `src/metrics.py` is not among the repository's files, a model
built from the specification).  Python floats are modelled as exact rationals
(`ℚ`); the float `NaN` missing sentinel and Python `None` are modelled
explicitly by the `PyVal` type and by `Option ℚ` (`none` = NaN, the missing
sentinel).  Date indices of the pandas dividend series are modelled as
integers (days); the series itself is a chronologically ordered association
list of (date, per-share amount).  Amounts are modelled as finite rationals,
so `Series.dropna` is the identity and is not written out.
-/

namespace Watchlist

/-- Python's `str.upper()` (ASCII range, which covers every ticker and quote
type the code handles). -/
def strUpper (s : String) : String := ⟨s.data.map Char.toUpper⟩

/-- Python's `str.strip()`: leading and trailing whitespace removed. -/
def strStrip (s : String) : String :=
  ⟨((s.data.dropWhile Char.isWhitespace).reverse.dropWhile Char.isWhitespace).reverse⟩

/-- A Python runtime value as it appears in a yfinance `info` dict: `None`,
a finite float, a float `NaN`, or a (non-numeric) string.  Numeric strings
(which Python's `float` would parse) are outside the model. -/
inductive PyVal where
  | pynone : PyVal
  | num : ℚ → PyVal
  | nan : PyVal
  | str : String → PyVal
deriving DecidableEq, Repr

/-- Python truthiness: `None` and `0.0` and `""` are falsy; `NaN` and every
other float or non-empty string is truthy. -/
def PyVal.truthy : PyVal → Bool
  | .pynone => false
  | .num q => q != 0
  | .nan => true
  | .str s => s != ""

/-- Python's short-circuiting `or`: the first operand if truthy, else the
second. -/
def pyOr (a b : PyVal) : PyVal :=
  if a.truthy then a else b

/-- Model of `_to_float` from `src/fundamentals.py`: `None` becomes NaN; a value
`float` cannot convert (or NaN itself) also yields NaN.  `none` is the NaN
missing sentinel of the result. -/
def to_float : PyVal → Option ℚ
  | .num q => some q
  | _ => none

/-- The fields of the yfinance `info` dict that `src/fundamentals.py` reads. -/
structure Info where
  trailingPE : PyVal
  forwardPE : PyVal
  debtToEquity : PyVal
  dividendYield : PyVal
  trailingAnnualDividendYield : PyVal
  profitMargins : PyVal
  netMargins : PyVal
  currentPrice : PyVal
  annualReportExpenseRatio : PyVal
  expenseRatio : PyVal
  fundExpenseRatio : PyVal
  quoteType : Option String
deriving DecidableEq, Repr

/-- An `Info` in which every field is absent, used for concrete instances. -/
def baseInfo : Info :=
  ⟨.pynone, .pynone, .pynone, .pynone, .pynone, .pynone, .pynone, .pynone,
   .pynone, .pynone, .pynone, none⟩

/-- Model of `info.get(k)` for the keys named in `FUND_KEYS_MAP`
(`src/fundamentals.py`); an unknown key yields `None`. -/
def infoGet (info : Info) (k : String) : PyVal :=
  if k = "trailingPE" then info.trailingPE
  else if k = "forwardPE" then info.forwardPE
  else if k = "debtToEquity" then info.debtToEquity
  else if k = "dividendYield" then info.dividendYield
  else if k = "trailingAnnualDividendYield" then info.trailingAnnualDividendYield
  else if k = "profitMargins" then info.profitMargins
  else if k = "netMargins" then info.netMargins
  else .pynone

/-- The map `FUND_KEYS_MAP` from `src/fundamentals.py`: our column names mapped to
likely yfinance keys, in the source's order. -/
def FUND_KEYS_MAP : List (String × List String) :=
  [("P/E", ["trailingPE"]),
   ("Forward P/E", ["forwardPE"]),
   ("D/E", ["debtToEquity"]),
   ("Div Yield", ["dividendYield", "trailingAnnualDividendYield"]),
   ("Net Profit Margin", ["profitMargins", "netMargins"])]

/-- The list `COLUMNS` from `src/fundamentals.py`. -/
def COLUMNS : List String :=
  ["P/E", "Forward P/E", "D/E", "Div Yield", "Net Profit Margin", "Expense Ratio"]

/-- Model of `_safe_pick` from `src/fundamentals.py`: the first key whose value is not
`None` is converted with `_to_float` (even when that conversion yields NaN);
when every key is `None` the result is NaN. -/
def safe_pick (info : Info) : List String → Option ℚ
  | [] => none
  | k :: keys =>
    match infoGet info k with
    | .pynone => safe_pick info keys
    | v => to_float v

/-- Model of `_normalize_decimal` from `src/fundamentals.py`: `None`/NaN stay NaN,
`0 ≤ v ≤ 1` is kept, `1 < v ≤ 100` is divided by 100, every other value is
returned as-is. -/
def normalize_decimal : Option ℚ → Option ℚ
  | none => none
  | some v =>
    if 0 ≤ v ∧ v ≤ 1 then some v
    else if 1 < v ∧ v ≤ 100 then some (v / 100)
    else some v

/-- One candidate step of the loop in `_safe_dividend_yield`
(`src/fundamentals.py`): `None` is skipped, a non-numeric value makes
`float` raise and is skipped, NaN fails every comparison and falls through,
and a number resolves per the three threshold branches (a negative number
falls through to the next candidate). -/
def resolveCandidate : PyVal → Option ℚ
  | .pynone => none
  | .nan => none
  | .str _ => none
  | .num vv =>
    if vv ≥ 1 then some (vv / 100)
    else if 0.2 < vv ∧ vv < 1 then some (vv / 100)
    else if 0 ≤ vv ∧ vv ≤ 0.2 then some vv
    else none

/-- The candidate loop of `_safe_dividend_yield`: the first candidate that
resolves wins. -/
def resolveCandidates : List PyVal → Option ℚ
  | [] => none
  | v :: rest =>
    match resolveCandidate v with
    | some r => some r
    | none => resolveCandidates rest

/-- Model of `divs.index.max()` for a dividend series modelled as a list of
(date, amount); 0 for the empty series (the code only reads it for a
non-empty series). -/
def maxDate : List (Int × ℚ) → Int
  | [] => 0
  | d :: ds => ds.foldl (fun m e => max m e.1) d.1

/-- Model of `divs[divs.index > cutoff]` with `cutoff = latest − 365` days
(`_safe_dividend_yield`'s last-year window, strict comparison as in the
source). -/
def lastYearDivs (divs : List (Int × ℚ)) : List (Int × ℚ) :=
  divs.filter (fun e => decide (maxDate divs - 365 < e.1))

/-- The sum of the last-year window of the dividend series. -/
def lastYearSum (divs : List (Int × ℚ)) : ℚ :=
  ((lastYearDivs divs).map Prod.snd).sum

/-- Model of `divs.dropna().tail(4).sum()` (amounts are modelled as finite rationals,
so `dropna` is the identity): the sum of the last 4 payments in positional
(chronological) order. -/
def tail4Sum (divs : List (Int × ℚ)) : ℚ :=
  ((divs.map Prod.snd).drop (divs.length - 4)).sum

/-- The value `total` in `_safe_dividend_yield`'s fallback: the last-year window's sum
when the window is non-empty, otherwise the sum of the last 4 payments. -/
def ttmTotal (divs : List (Int × ℚ)) : ℚ :=
  if (lastYearDivs divs).isEmpty then tail4Sum divs else lastYearSum divs

/-- The fallback of `_safe_dividend_yield` (`src/fundamentals.py` lines
79–92): guarded by `price and price > 0` (so `None`, NaN, zero and negative
prices all skip it), it divides the trailing-twelve-month dividend total by
the price when the series is non-empty and the total is positive, else NaN. -/
def ttm_fallback (divs : List (Int × ℚ)) (price : Option ℚ) : Option ℚ :=
  match price with
  | none => none
  | some p =>
    if 0 < p then
      if divs.isEmpty then none
      else if 0 < ttmTotal divs then some (ttmTotal divs / p)
      else none
    else none

/-- Model of `_safe_dividend_yield` from `src/fundamentals.py`: try the candidates
`info["dividendYield"]`, `info["trailingAnnualDividendYield"]` in order and
return the first that resolves; otherwise fall back to the
trailing-twelve-month estimate. -/
def safe_dividend_yield (info : Info) (divs : List (Int × ℚ)) (price : Option ℚ) :
    Option ℚ :=
  match resolveCandidates [info.dividendYield, info.trailingAnnualDividendYield] with
  | some r => some r
  | none => ttm_fallback divs price

/-- Model of `(info.get("quoteType") or "").upper()` from `src/fundamentals.py`
(the field is modelled as an optional string). -/
def quoteTypeUpper (info : Info) : String :=
  strUpper (info.quoteType.getD "")

/-- The raw expense-ratio pick of `src/fundamentals.py` lines 130–134:
`_to_float(info.get("annualReportExpenseRatio") or info.get("expenseRatio")
or info.get("fundExpenseRatio"))` — a truthiness `or` chain, so a falsy
(absent or exactly 0.0) field is skipped in favour of later keys. -/
def erRaw (info : Info) : Option ℚ :=
  to_float (pyOr info.annualReportExpenseRatio
    (pyOr info.expenseRatio info.fundExpenseRatio))

/-- The `row["Expense Ratio"]` assignment of `src/fundamentals.py` lines
135–140: for quote type `"ETF"` the raw pick is normalized; otherwise it is
normalized only when it is a valid (non-NaN) number, else NaN.  (`er` is the
result of `_to_float` and hence never Python `None`, so the source's
`er is not None` test is vacuous.) -/
def expense_ratio_row (info : Info) : Option ℚ :=
  if quoteTypeUpper info = "ETF" then normalize_decimal (erRaw info)
  else
    match erRaw info with
    | some q => normalize_decimal (some q)
    | none => none

/-- The per-ticker market data the code obtains from yfinance, passed in as
an environment: the `info` dict, the dividend series, and the last non-null
close of the 5-day history (`none` when the history is empty, has no
`Close` column, or the fetch raises). -/
structure MarketData where
  info : Info
  divs : List (Int × ℚ)
  histClose : Option ℚ
deriving DecidableEq, Repr

/-- The price selection of `fetch_fundamentals_one` (`src/fundamentals.py`
lines 113–124): `_to_float(info.get("currentPrice"))` when that is a
positive non-NaN float, otherwise the last close of the 5-day history. -/
def price_of (md : MarketData) : Option ℚ :=
  match to_float md.info.currentPrice with
  | some p => if 0 < p then some p else md.histClose
  | none => md.histClose

/-- A row of the fundamentals table: an association list from column name to
float value (`none` = NaN). -/
abbrev Row := List (String × Option ℚ)

/-- Model of `row.get(k)`: the value at a key, NaN-as-`none` when the key is absent
(the only caller feeds an absent key's `None` into `_normalize_decimal`,
which returns NaN, so folding the two cases together is faithful). -/
def rowGet (row : Row) (k : String) : Option ℚ :=
  match row.find? (fun e => e.1 == k) with
  | some e => e.2
  | none => none

/-- Model of `row[k] = v` on a dict whose key `k` is already present: the value is
replaced in place, the key order is unchanged. -/
def rowSet (row : Row) (k : String) (v : Option ℚ) : Row :=
  row.map (fun e => if e.1 == k then (k, v) else e)

/-- Model of `fetch_fundamentals_one` from `src/fundamentals.py`, relative to an
environment giving each ticker's market data: `none` models the empty dict
returned for an all-whitespace ticker; otherwise the pair of the normalized
ticker (the `"Ticker"` entry, used as the index) and the row, built exactly
as the source does — the `FUND_KEYS_MAP` picks, the `Div Yield` override by
`_safe_dividend_yield`, the appended ETF-aware `Expense Ratio`, and the
`Net Profit Margin` normalization.  (The final `_to_float` pass over
`P/E`, `Forward P/E`, `D/E` applies `float` to values that are already
floats and is the identity, so it is not written out.) -/
def fetch_fundamentals_one (env : String → MarketData) (ticker : String) :
    Option (String × Row) :=
  let t := strUpper (strStrip ticker)
  if t = "" then none
  else
    let md := env t
    let info := md.info
    let base : Row := FUND_KEYS_MAP.map (fun e => (e.1, safe_pick info e.2))
    let price := price_of md
    let row1 := rowSet base "Div Yield" (safe_dividend_yield info md.divs price)
    let row2 := row1 ++ [("Expense Ratio", expense_ratio_row info)]
    let row3 := rowSet row2 "Net Profit Margin"
      (normalize_decimal (rowGet row2 "Net Profit Margin"))
    some (t, row3)

/-- The fundamentals table: the column names (in order) and the rows, each a
normalized ticker (the index) with its association list of column values. -/
structure FundTable where
  colNames : List String
  tableRows : List (String × Row)
deriving DecidableEq

/-- Model of `fetch_fundamentals_many` from `src/fundamentals.py`: collect the
records (skipping empty ones), and return the empty frame with the expected
columns when there are none; otherwise build the DataFrame, ensure every
expected column exists, and select `COLUMNS` in order.  Every record carries
all `COLUMNS` keys, so the ensure-loop adds nothing and `df[COLUMNS]`
reindexes each row to `COLUMNS` (an absent key would surface as NaN, which
`rowGet` models). -/
def fetch_fundamentals_many (env : String → MarketData) (tickers : List String) :
    FundTable :=
  let records := tickers.filterMap (fetch_fundamentals_one env)
  if records.isEmpty then ⟨COLUMNS, []⟩
  else ⟨COLUMNS, records.map (fun r => (r.1, COLUMNS.map (fun c => (c, rowGet r.2 c))))⟩

/-! ## Definitions written from the specification's words

Used only to compare a claim's wording with the code (refinement checks),
or — for the metrics aggregator, whose module `src/metrics.py` is imported
by `app.py` but is not among the repository's files — to model the missing
code from the specification. -/

/-- Model of `divs.index.min()`: the earliest payment date (0 for the empty series). -/
def minDate : List (Int × ℚ) → Int
  | [] => 0
  | d :: ds => ds.foldl (fun m e => min m e.1) d.1

/-- Modelled from the claim's words (C3, quoting the spec's §4.6): the
fallback "sums per-share dividend payments occurring within 365 days of the
most recent payment date (or, if fewer than one year of history exists,
sums the last 4 payments), divides by the supplied current/approximate
price", and is "missing if no positive price is available or the sum is
zero (or the dividend history is empty)". -/
def ttm_fallback_claimed (divs : List (Int × ℚ)) (price : Option ℚ) : Option ℚ :=
  match price with
  | none => none
  | some p =>
    if 0 < p then
      if divs.isEmpty then none
      else
        let total :=
          if maxDate divs - minDate divs < 365 then tail4Sum divs
          else lastYearSum divs
        if 0 < total then some (total / p) else none
    else none

/-- Modelled from the claim's words (C4): "a reported ratio field exists" /
"an explicit ratio field is present" — some expense-ratio key of the info
dict carries a value (is not `None`). -/
def hasERField (info : Info) : Bool :=
  (info.annualReportExpenseRatio != PyVal.pynone)
    || (info.expenseRatio != PyVal.pynone)
    || (info.fundExpenseRatio != PyVal.pynone)

/-! ## The metrics aggregator, modelled from the spec (§4.1–§4.5)

`src/metrics.py` provides `compute_all_metrics` to `app.py` but is not
present among the repository's source files, so the component is modelled
from the specification's words.  Prices and returns are real numbers,
date-indexed by integers. -/

/-- A date-indexed series of real values (a PriceSeries or ReturnSeries). -/
abbrev Series := List (Int × ℝ)

/-- Modelled from the spec (§4.1 Return Transform): `return[i] =
price[i]/price[i-1] - 1`, the first observation dropped; an empty or
single-point price series yields an empty return series. -/
noncomputable def daily_returns : Series → Series
  | [] => []
  | [_] => []
  | a :: b :: rest => (b.1, b.2 / a.2 - 1) :: daily_returns (b :: rest)

/-- The annualization constant of the spec's RateConfig: 252 trading days. -/
def TRADING_DAYS : ℕ := 252

/-- Arithmetic mean of a list of reals (callers guard emptiness). -/
noncomputable def listMean (l : List ℝ) : ℝ := l.sum / l.length

/-- Population variance (divisor `N`, per the spec's §4.2 convention). -/
noncomputable def popVar (l : List ℝ) : ℝ :=
  listMean (l.map (fun x => (x - listMean l) ^ 2))

/-- Population standard deviation. -/
noncomputable def popStd (l : List ℝ) : ℝ := Real.sqrt (popVar l)

/-- Modelled from the spec (§4.2): `mean(returns) × 252`, missing if empty. -/
noncomputable def annualized_return (rs : Series) : Option ℝ :=
  if rs.isEmpty then none
  else some (listMean (rs.map Prod.snd) * TRADING_DAYS)

/-- Modelled from the spec (§4.2): population standard deviation × √252,
missing if empty. -/
noncomputable def annualized_vol (rs : Series) : Option ℝ :=
  if rs.isEmpty then none
  else some (popStd (rs.map Prod.snd) * Real.sqrt TRADING_DAYS)

/-- Modelled from the spec (§4.2 `max_drawdown`): the growth curve starts at
1.0 at the first price and compounds per-step returns (so it equals
`price[i]/price[0]`); the result is the minimum over the curve of
`growth/peak − 1` against the running peak, missing for a series of zero
length. -/
noncomputable def max_drawdown (prices : Series) : Option ℝ :=
  match prices with
  | [] => none
  | p :: ps =>
    let growth : List ℝ := ps.map (fun q => q.2 / p.2)
    some (growth.foldl
      (fun st g => let peak := max st.1 g; (peak, min st.2 (g / peak - 1)))
      ((1 : ℝ), (0 : ℝ))).2

/-- Modelled from the spec (§4.3): daily risk-free rate `rf/252`, excess
returns, `mean(excess)×252 ÷ (popstd(excess)×√252)`; missing if the return
series is empty or the denominator is zero. -/
noncomputable def sharpe_ratio (rs : Series) (rf : ℝ) : Option ℝ :=
  if rs.isEmpty then none
  else
    let ex := rs.map (fun r => r.2 - rf / TRADING_DAYS)
    let denom := popStd ex * Real.sqrt TRADING_DAYS
    if denom = 0 then none else some (listMean ex * TRADING_DAYS / denom)

/-- Modelled from the spec (§4.3): like Sharpe but the denominator is the
population standard deviation of only the negative excess observations,
annualized the same way; missing if the series is empty, there is no
negative excess observation, or the denominator is zero. -/
noncomputable def sortino_ratio (rs : Series) (rf : ℝ) : Option ℝ :=
  if rs.isEmpty then none
  else
    let ex := rs.map (fun r => r.2 - rf / TRADING_DAYS)
    let neg := ex.filter (fun x => decide (x < 0))
    if neg.isEmpty then none
    else
      let denom := popStd neg * Real.sqrt TRADING_DAYS
      if denom = 0 then none else some (listMean ex * TRADING_DAYS / denom)

/-- The inner join on date of two series (spec §3 Invariants: alignment for
two-series calculators always uses the intersection of dates). -/
def innerJoin (xs ys : Series) : List (Int × ℝ × ℝ) :=
  xs.filterMap (fun x => (ys.find? (fun y => y.1 == x.1)).map (fun y => (x.1, x.2, y.2)))

/-- Modelled from the spec (§4.4): population std of the aligned active
returns × √252; missing if the aligned intersection is empty. -/
noncomputable def tracking_error (rs bench : Series) : Option ℝ :=
  let j := innerJoin rs bench
  if j.isEmpty then none
  else some (popStd (j.map (fun e => e.2.1 - e.2.2)) * Real.sqrt TRADING_DAYS)

/-- Modelled from the spec (§4.4): regression of aligned excess returns,
`(beta, alpha, R²)`; all missing with fewer than 2 aligned points; beta
missing when the benchmark excess variance is zero; alpha follows beta;
R² missing when either excess series has zero variance. -/
noncomputable def beta_alpha_r2 (rs bench : Series) (rf : ℝ) :
    Option ℝ × Option ℝ × Option ℝ :=
  let j := innerJoin rs bench
  if j.length < 2 then (none, none, none)
  else
    let y := j.map (fun e => e.2.1 - rf / TRADING_DAYS)
    let x := j.map (fun e => e.2.2 - rf / TRADING_DAYS)
    let covxy := listMean (List.zipWith
      (fun a b => (a - listMean x) * (b - listMean y)) x y)
    let beta := if popVar x = 0 then none else some (covxy / popVar x)
    let alpha := match beta with
      | none => none
      | some b => some ((listMean y - b * listMean x) * TRADING_DAYS)
    let r2 :=
      if popStd x = 0 ∨ popStd y = 0 then none
      else some ((covxy / (popStd x * popStd y)) ^ 2)
    (beta, alpha, r2)

/-- One MetricRecord (spec §3), fields in the spec's fixed order. -/
structure MetricRecord where
  annReturn : Option ℝ
  sharpe : Option ℝ
  sortino : Option ℝ
  volatility : Option ℝ
  maxDrawdown : Option ℝ
  trackingError : Option ℝ
  alpha : Option ℝ
  beta : Option ℝ
  r2 : Option ℝ

/-- Modelled from the spec (§4.5): the MetricRecord of one instrument,
populated by invoking the calculators of §4.2–§4.4 on its return series and
the benchmark's. -/
noncomputable def metric_record (prices : Series) (bench : Series) (rf : ℝ) :
    MetricRecord :=
  let rs := daily_returns prices
  let bar := beta_alpha_r2 rs bench rf
  { annReturn := annualized_return rs
    sharpe := sharpe_ratio rs rf
    sortino := sortino_ratio rs rf
    volatility := annualized_vol rs
    maxDrawdown := max_drawdown prices
    trackingError := tracking_error rs bench
    alpha := bar.2.1
    beta := bar.1
    r2 := bar.2.2 }

/-- Modelled from the spec (§4.5 Metrics Aggregator): for every identifier
in the price matrix other than the benchmark, derive its return series and
the benchmark's (empty if the benchmark is absent from the matrix) and
populate one MetricRecord by §4.2–§4.4; an empty matrix yields an empty
mapping. -/
noncomputable def compute_all_metrics (pm : List (String × Series))
    (benchmark : String) (rf : ℝ) : List (String × MetricRecord) :=
  let bench : Series :=
    match pm.find? (fun e => e.1 == benchmark) with
    | some e => daily_returns e.2
    | none => []
  (pm.filter (fun e => e.1 != benchmark)).map
    (fun e => (e.1, metric_record e.2 bench rf))

/-! ## Concrete instances used by the theorems -/

/-- Five monthly per-share payments of 1, spanning 120 days: less than one
year of history, yet all five lie within 365 days of the latest payment. -/
def divs5 : List (Int × ℚ) := [(0, 1), (30, 1), (60, 1), (90, 1), (120, 1)]

/-- An ETF whose only reported expense-ratio field carries exactly 0.0. -/
def infoETFonlyZeroER : Info :=
  { baseInfo with expenseRatio := PyVal.num 0, quoteType := some "ETF" }

/-- A fund-type instrument whose only reported expense-ratio value is a 0.0
in the first key of the truthiness chain. -/
def infoETFzero : Info :=
  { baseInfo with annualReportExpenseRatio := PyVal.num 0, quoteType := some "ETF" }

/-- A non-fund instrument whose only reported expense-ratio value is 0.0 in
the middle key of the truthiness chain. -/
def infoEquityZero : Info :=
  { baseInfo with expenseRatio := PyVal.num 0, quoteType := some "EQUITY" }

/-- A fund-type instrument reporting an ordinary expense ratio of 0.75%. -/
def infoETFwithER : Info :=
  { baseInfo with annualReportExpenseRatio := PyVal.num 0.0075, quoteType := some "ETF" }

/-- A fund-type instrument whose only reported expense-ratio value is a 0.0
in `fundExpenseRatio`, the final key of the truthiness chain (Python's `or`
returns its last operand when every operand is falsy). -/
def infoETFfundZero : Info :=
  { baseInfo with fundExpenseRatio := PyVal.num 0, quoteType := some "ETF" }

/-! ## Helper lemmas -/

/-- Normalization yields the missing sentinel exactly on the missing input. -/
lemma normalize_decimal_none_iff (v : Option ℚ) :
    normalize_decimal v = none ↔ v = none := by
  cases v with
  | none => simp [normalize_decimal]
  | some q =>
    simp only [normalize_decimal]
    split_ifs <;> simp

/-- Normalization preserves definedness. -/
lemma normalize_decimal_isSome (v : Option ℚ) :
    (normalize_decimal v).isSome = v.isSome := by
  cases v with
  | none => rfl
  | some q =>
    simp only [normalize_decimal]
    split_ifs <;> rfl

/-- A resolved candidate is nonnegative. -/
lemma resolveCandidate_nonneg (v : PyVal) (r : ℚ)
    (h : resolveCandidate v = some r) : 0 ≤ r := by
  cases v with
  | pynone => simp [resolveCandidate] at h
  | nan => simp [resolveCandidate] at h
  | str s => simp [resolveCandidate] at h
  | num vv =>
    simp only [resolveCandidate] at h
    split_ifs at h with h1 h2 h3
    · cases h
      have : (0:ℚ) < vv := by linarith
      positivity
    · cases h
      have : (0:ℚ) < vv := by linarith [h2.1]
      positivity
    · cases h; exact h3.1

/-- The candidate loop only resolves to a nonnegative value. -/
lemma resolveCandidates_nonneg (l : List PyVal) (r : ℚ)
    (h : resolveCandidates l = some r) : 0 ≤ r := by
  induction l with
  | nil => simp [resolveCandidates] at h
  | cons v rest ih =>
    simp only [resolveCandidates] at h
    cases hv : resolveCandidate v with
    | some r' => rw [hv] at h; cases h; exact resolveCandidate_nonneg v r hv
    | none => rw [hv] at h; exact ih h

/-- The trailing-twelve-month fallback only returns for a positive price and
a positive total, hence a positive (so nonnegative) yield. -/
lemma ttm_fallback_pos (divs : List (Int × ℚ)) (price : Option ℚ) (r : ℚ)
    (h : ttm_fallback divs price = some r) :
    ∃ p, price = some p ∧ 0 < p ∧ 0 < ttmTotal divs ∧ r = ttmTotal divs / p := by
  cases price with
  | none => simp [ttm_fallback] at h
  | some p =>
    by_cases hp : 0 < p
    · by_cases hd : divs.isEmpty
      · simp [ttm_fallback, hp, hd] at h
      · by_cases ht : 0 < ttmTotal divs
        · refine ⟨p, rfl, hp, ht, ?_⟩
          simp [ttm_fallback, hp, hd, ht] at h
          exact h.symm
        · simp [ttm_fallback, hp, hd, ht] at h
    · simp [ttm_fallback, hp] at h

/-- The fold computing the series' maximal date returns its seed or a date
of the list. -/
lemma foldl_max_choice (l : List (Int × ℚ)) :
    ∀ a : Int, l.foldl (fun m e => max m e.1) a = a ∨
      ∃ e ∈ l, l.foldl (fun m e => max m e.1) a = e.1 := by
  induction l with
  | nil => intro a; left; rfl
  | cons d ds ih =>
    intro a
    rcases ih (max a d.1) with h | ⟨e, he, h⟩
    · rcases max_choice a d.1 with hm | hm
      · left; rw [List.foldl_cons, h, hm]
      · right
        exact ⟨d, List.mem_cons_self d ds, by rw [List.foldl_cons, h, hm]⟩
    · right; exact ⟨e, List.mem_cons_of_mem d he, by simpa using h⟩

/-- A non-empty series attains its maximal date. -/
lemma maxDate_mem (divs : List (Int × ℚ)) (h : divs ≠ []) :
    ∃ e ∈ divs, e.1 = maxDate divs := by
  match divs, h with
  | d :: ds, _ =>
    rcases foldl_max_choice ds d.1 with h' | ⟨e, he, h'⟩
    · exact ⟨d, List.mem_cons_self d ds, by simp [maxDate, h']⟩
    · exact ⟨e, List.mem_cons_of_mem d he, by simp [maxDate, h']⟩

/-- The last-year window always contains the latest payment, hence is
non-empty for a non-empty series (the `tail(4)` branch is dead code). -/
lemma lastYearDivs_ne_nil (divs : List (Int × ℚ)) (h : divs ≠ []) :
    lastYearDivs divs ≠ [] := by
  obtain ⟨e, he, hd⟩ := maxDate_mem divs h
  have : e ∈ lastYearDivs divs := by
    simp only [lastYearDivs, List.mem_filter, decide_eq_true_eq]
    exact ⟨he, by rw [hd]; omega⟩
  exact List.ne_nil_of_mem this

/-- For a non-empty series the fallback's total is the last-year window sum. -/
lemma ttmTotal_eq_lastYearSum (divs : List (Int × ℚ)) (h : divs ≠ []) :
    ttmTotal divs = lastYearSum divs := by
  have := lastYearDivs_ne_nil divs h
  simp only [ttmTotal]
  rw [if_neg]
  simpa [List.isEmpty_iff] using this

/-- Exactly when the fallback is missing. -/
lemma ttm_fallback_none_iff (divs : List (Int × ℚ)) (price : Option ℚ) :
    ttm_fallback divs price = none ↔
      ¬ ∃ p, price = some p ∧ 0 < p ∧ divs ≠ [] ∧ 0 < ttmTotal divs := by
  cases price with
  | none => simp [ttm_fallback]
  | some p =>
    simp only [ttm_fallback]
    split_ifs with hp hd ht
    · simp only [List.isEmpty_iff] at hd
      simp [hd]
    · simp only [List.isEmpty_iff] at hd
      simp [hp, hd, ht]
    · simp only [List.isEmpty_iff] at hd
      simp [hp, hd, ht]
    · simp [hp]

/-- When no candidate resolves the resolver is its fallback. -/
lemma safe_dividend_yield_of_no_candidate (info : Info)
    (divs : List (Int × ℚ)) (price : Option ℚ)
    (h : resolveCandidates [info.dividendYield, info.trailingAnnualDividendYield] = none) :
    safe_dividend_yield info divs price = ttm_fallback divs price := by
  unfold safe_dividend_yield
  rw [h]

/-- The indices of the collected records: the normalized forms of the
non-blank requested tickers, in order. -/
lemma records_map_fst (env : String → MarketData) (tickers : List String) :
    (tickers.filterMap (fetch_fundamentals_one env)).map Prod.fst
      = (tickers.filter (fun t => strUpper (strStrip t) != "")).map
          (fun t => strUpper (strStrip t)) := by
  induction tickers with
  | nil => rfl
  | cons t ts ih =>
    by_cases h : strUpper (strStrip t) = ""
    · simp [List.filterMap_cons, List.filter_cons, fetch_fundamentals_one, h, ih]
    · simp [List.filterMap_cons, List.filter_cons, fetch_fundamentals_one, h, ih]

/-- Keys of a reindexed row. -/
lemma map_fst_keys (l : List String) (g : String → Option ℚ) :
    (l.map (fun c => (c, g c))).map Prod.fst = l := by
  induction l with
  | nil => rfl
  | cons a l ih => simp [ih]

/-- A constant map is a replication. -/
lemma map_const_replicate {α β : Type} (l : List α) (b : β) :
    l.map (fun _ => b) = List.replicate l.length b := by
  induction l with
  | nil => rfl
  | cons a l ih => simp [ih, List.replicate_succ]

/-- The rows of the aggregated table are the reindexed records (in both
branches of the empty test). -/
lemma fetch_many_tableRows (env : String → MarketData) (tickers : List String) :
    (fetch_fundamentals_many env tickers).tableRows
      = (tickers.filterMap (fetch_fundamentals_one env)).map
          (fun r => (r.1, COLUMNS.map (fun c => (c, rowGet r.2 c)))) := by
  simp only [fetch_fundamentals_many]
  by_cases h : (tickers.filterMap (fetch_fundamentals_one env)).isEmpty = true
  · rw [if_pos h, List.isEmpty_iff.mp h]
    rfl
  · rw [if_neg h]

/-- The columns of the aggregated table are always `COLUMNS`. -/
lemma fetch_many_colNames (env : String → MarketData) (tickers : List String) :
    (fetch_fundamentals_many env tickers).colNames = COLUMNS := by
  simp only [fetch_fundamentals_many]
  split <;> rfl

/-- First projections of a filtered association list. -/
lemma filter_map_fst (pm : List (String × Series)) (b : String) :
    (pm.filter (fun e => e.1 != b)).map Prod.fst
      = (pm.map Prod.fst).filter (fun i => i != b) := by
  induction pm with
  | nil => rfl
  | cons e l ih =>
    by_cases h : e.1 = b
    · simp [List.filter_cons, h, ih]
    · simp [List.filter_cons, h, ih]

/-- First projections of an association list rebuilt from its keys. -/
lemma map_fst_of_build {α β : Type} (l : List (String × α)) (F : String × α → β) :
    (l.map (fun e => (e.1, F e))).map Prod.fst = l.map Prod.fst := by
  induction l with
  | nil => rfl
  | cons e l ih => simp [ih]

/-! ## The claims -/

/-- C2: for every input of `_normalize_decimal`, a missing input (`None` or
NaN) yields missing; `0 ≤ v ≤ 1` is returned unchanged; `1 < v ≤ 100` is
divided by 100; any other value (`v < 0` or `v > 100`) is returned
unchanged; in particular `0.5 ↦ 0.5`, `45 ↦ 0.45` and `150 ↦ 150`. -/
theorem C2_normalize_decimal :
    normalize_decimal none = none
    ∧ (∀ v : ℚ, 0 ≤ v → v ≤ 1 → normalize_decimal (some v) = some v)
    ∧ (∀ v : ℚ, 1 < v → v ≤ 100 → normalize_decimal (some v) = some (v / 100))
    ∧ (∀ v : ℚ, v < 0 ∨ 100 < v → normalize_decimal (some v) = some v)
    ∧ normalize_decimal (some 0.5) = some 0.5
    ∧ normalize_decimal (some 45) = some 0.45
    ∧ normalize_decimal (some 150) = some 150 := by
  refine ⟨rfl, ?_, ?_, ?_, ?_, ?_, ?_⟩
  · intro v h1 h2
    simp [normalize_decimal, h1, h2]
  · intro v h1 h2
    have hn : ¬ (0 ≤ v ∧ v ≤ 1) := by rintro ⟨-, h⟩; linarith
    simp [normalize_decimal, hn, h1, h2]
  · intro v h
    rcases h with h | h
    · have h1 : ¬ (0 ≤ v ∧ v ≤ 1) := by rintro ⟨h', -⟩; linarith
      have h2 : ¬ (1 < v ∧ v ≤ 100) := by rintro ⟨h', -⟩; linarith
      simp [normalize_decimal, h1, h2]
    · have h1 : ¬ (0 ≤ v ∧ v ≤ 1) := by rintro ⟨-, h'⟩; linarith
      have h2 : ¬ (1 < v ∧ v ≤ 100) := by rintro ⟨-, h'⟩; linarith
      simp [normalize_decimal, h1, h2]
  · norm_num [normalize_decimal]
  · norm_num [normalize_decimal]
  · norm_num [normalize_decimal]

/-- C8: `_normalize_decimal` is idempotent on every input: a value in
`(1, 100]` lands in `[0.01, 1]`, which the function leaves unchanged, and
every other value is already left unchanged. -/
theorem C8_normalize_decimal_idempotent (v : Option ℚ) :
    normalize_decimal (normalize_decimal v) = normalize_decimal v := by
  cases v with
  | none => rfl
  | some q =>
    by_cases h1 : 0 ≤ q ∧ q ≤ 1
    · simp [normalize_decimal, h1]
    · by_cases h2 : 1 < q ∧ q ≤ 100
      · have ha : 0 ≤ q / 100 := by
          have : (0:ℚ) < q := by linarith [h2.1]
          positivity
        have hb : q / 100 ≤ 1 := by
          rw [div_le_one (by norm_num : (0:ℚ) < 100)]
          exact h2.2
        simp [normalize_decimal, h1, h2, ha, hb]
      · simp [normalize_decimal, h1, h2]

/-- C5: the two normalization functions are total Lean functions on the
modelled inputs and degrade to the missing sentinel exactly when no defined
value can be produced: `_normalize_decimal` is missing iff its input is,
and `_safe_dividend_yield` is missing iff no candidate resolves and the
fallback has no positive price, an empty dividend history, or a
non-positive trailing total. -/
theorem C5_missing_characterization :
    (∀ v, normalize_decimal v = none ↔ v = none)
    ∧ (∀ info divs price,
        safe_dividend_yield info divs price = none ↔
          (resolveCandidates [info.dividendYield, info.trailingAnnualDividendYield] = none
           ∧ ¬ ∃ p, price = some p ∧ 0 < p ∧ divs ≠ [] ∧ 0 < ttmTotal divs)) := by
  refine ⟨normalize_decimal_none_iff, ?_⟩
  intro info divs price
  cases hc : resolveCandidates [info.dividendYield, info.trailingAnnualDividendYield] with
  | some r =>
    constructor
    · intro h
      rw [show safe_dividend_yield info divs price = some r by
        unfold safe_dividend_yield; rw [hc]] at h
      cases h
    · rintro ⟨h, -⟩
      cases h
  | none =>
    rw [safe_dividend_yield_of_no_candidate info divs price hc,
      ttm_fallback_none_iff]
    simp

/-- C9: the dividend-yield resolver never returns a negative value: a
returned number is nonnegative, a negative candidate does not resolve (it
falls through to the next candidate, as the concrete instance with
candidates −0.05 and 0.03 shows), and the fallback only returns a value
when both the price and the dividend total are strictly positive. -/
theorem C9_div_yield_nonneg :
    (∀ info divs price r, safe_dividend_yield info divs price = some r → 0 ≤ r)
    ∧ (∀ vv : ℚ, vv < 0 → resolveCandidate (.num vv) = none)
    ∧ (∀ divs price r, ttm_fallback divs price = some r →
        ∃ p, price = some p ∧ 0 < p ∧ 0 < ttmTotal divs)
    ∧ safe_dividend_yield
        { baseInfo with dividendYield := PyVal.num (-0.05),
                        trailingAnnualDividendYield := PyVal.num 0.03 }
        [] none = some 0.03 := by
  refine ⟨?_, ?_, ?_, ?_⟩
  · intro info divs price r h
    unfold safe_dividend_yield at h
    cases hc : resolveCandidates [info.dividendYield, info.trailingAnnualDividendYield] with
    | some r' =>
      rw [hc] at h
      cases h
      exact resolveCandidates_nonneg _ _ hc
    | none =>
      rw [hc] at h
      obtain ⟨p, -, hp, ht, hr⟩ := ttm_fallback_pos divs price r h
      rw [hr]
      positivity
  · intro vv hv
    have h1 : ¬ vv ≥ 1 := by intro h; linarith
    have h2 : ¬ (0.2 < vv ∧ vv < 1) := by rintro ⟨h, -⟩; linarith
    have h3 : ¬ (0 ≤ vv ∧ vv ≤ 0.2) := by rintro ⟨h, -⟩; linarith
    simp [resolveCandidate, h1, h2, h3]
  · intro divs price r h
    obtain ⟨p, hp, h1, h2, -⟩ := ttm_fallback_pos divs price r h
    exact ⟨p, hp, h1, h2⟩
  · norm_num [safe_dividend_yield, resolveCandidates, resolveCandidate, baseInfo]

/-- C1 (counterexample): the claim asserts that candidate `0.45` resolves
to `0.045`, but the code's rule for `0.2 < v < 1.0` divides by 100, so the
resolver returns `0.0045`, which is not `0.045`. -/
theorem C1_counterexample :
    safe_dividend_yield { baseInfo with dividendYield := PyVal.num 0.45 } [] none
      = some 0.0045
    ∧ (some (0.0045 : ℚ) : Option ℚ) ≠ some (0.045 : ℚ) := by
  constructor
  · norm_num [safe_dividend_yield, resolveCandidates, resolveCandidate, baseInfo]
  · norm_num

/-- C1 (amended): candidates are tried in priority order (`dividendYield`,
then `trailingAnnualDividendYield`) and the first that resolves is
returned, with `v ≥ 1 ↦ v/100`, `0.2 < v < 1 ↦ v/100`, `0 ≤ v ≤ 0.2 ↦ v`;
in particular `1.19 ↦ 0.0119`, `0.015 ↦ 0.015` and `0.45 ↦ 0.0045` (not
`0.045`). -/
theorem C1_div_yield_resolution_amended :
    (∀ vv : ℚ, 1 ≤ vv → resolveCandidate (PyVal.num vv) = some (vv / 100))
    ∧ (∀ vv : ℚ, 0.2 < vv → vv < 1 → resolveCandidate (PyVal.num vv) = some (vv / 100))
    ∧ (∀ vv : ℚ, 0 ≤ vv → vv ≤ 0.2 → resolveCandidate (PyVal.num vv) = some vv)
    ∧ (∀ info divs price r, resolveCandidate info.dividendYield = some r →
        safe_dividend_yield info divs price = some r)
    ∧ (∀ info divs price r, resolveCandidate info.dividendYield = none →
        resolveCandidate info.trailingAnnualDividendYield = some r →
        safe_dividend_yield info divs price = some r)
    ∧ safe_dividend_yield { baseInfo with dividendYield := PyVal.num 1.19 } [] none
        = some 0.0119
    ∧ safe_dividend_yield { baseInfo with dividendYield := PyVal.num 0.015 } [] none
        = some 0.015
    ∧ safe_dividend_yield { baseInfo with dividendYield := PyVal.num 0.45 } [] none
        = some 0.0045 := by
  refine ⟨?_, ?_, ?_, ?_, ?_, ?_, ?_, ?_⟩
  · intro vv h
    simp [resolveCandidate, h]
  · intro vv ha hb
    have h1 : ¬ vv ≥ 1 := by intro h; linarith
    simp [resolveCandidate, h1, ha, hb]
  · intro vv ha hb
    have h1 : ¬ vv ≥ 1 := by intro h; linarith
    have h2 : ¬ ((0.2:ℚ) < vv ∧ vv < 1) := by rintro ⟨h, -⟩; linarith
    simp [resolveCandidate, h1, h2, ha, hb]
  · intro info divs price r h
    unfold safe_dividend_yield
    simp [resolveCandidates, h]
  · intro info divs price r h1 h2
    unfold safe_dividend_yield
    simp [resolveCandidates, h1, h2]
  · norm_num [safe_dividend_yield, resolveCandidates, resolveCandidate, baseInfo]
  · norm_num [safe_dividend_yield, resolveCandidates, resolveCandidate, baseInfo]
  · norm_num [safe_dividend_yield, resolveCandidates, resolveCandidate, baseInfo]

/-- C3 (counterexample): with five monthly payments of 1 spanning 120 days
(fewer than one year of history) and price 10, the code sums all five
payments of the 365-day window and returns 0.5, while the claim's
last-4-payments rule would give 0.4. -/
theorem C3_counterexample :
    safe_dividend_yield baseInfo divs5 (some 10) = some (1 / 2)
    ∧ ttm_fallback_claimed divs5 (some 10) = some (2 / 5)
    ∧ safe_dividend_yield baseInfo divs5 (some 10)
        ≠ ttm_fallback_claimed divs5 (some 10) := by
  have h1 : safe_dividend_yield baseInfo divs5 (some 10) = some (1 / 2) := by
    rw [safe_dividend_yield_of_no_candidate baseInfo divs5 (some 10) rfl]
    norm_num [ttm_fallback, ttmTotal, lastYearSum, lastYearDivs, maxDate, divs5]
  have h2 : ttm_fallback_claimed divs5 (some 10) = some (2 / 5) := by
    norm_num [ttm_fallback_claimed, maxDate, minDate, tail4Sum, divs5]
  refine ⟨h1, h2, ?_⟩
  rw [h1, h2]
  norm_num

/-- C3 (amended): when no candidate resolves, the resolver returns missing
without a positive price or with an empty history; otherwise it divides the
sum of the payments dated strictly within 365 days of the latest payment by
the price (missing when that sum is not positive).  The window always
contains the latest payment, so it is never empty for a non-empty history
and the sum-of-last-4-payments branch is unreachable. -/
theorem C3_ttm_fallback_amended :
    (∀ info divs,
        resolveCandidates [info.dividendYield, info.trailingAnnualDividendYield] = none →
        safe_dividend_yield info divs none = none)
    ∧ (∀ info divs p,
        resolveCandidates [info.dividendYield, info.trailingAnnualDividendYield] = none →
        p ≤ 0 → safe_dividend_yield info divs (some p) = none)
    ∧ (∀ info p,
        resolveCandidates [info.dividendYield, info.trailingAnnualDividendYield] = none →
        safe_dividend_yield info [] (some p) = none)
    ∧ (∀ info divs p,
        resolveCandidates [info.dividendYield, info.trailingAnnualDividendYield] = none →
        0 < p → divs ≠ [] →
        safe_dividend_yield info divs (some p)
          = if 0 < lastYearSum divs then some (lastYearSum divs / p) else none)
    ∧ (∀ divs : List (Int × ℚ), divs ≠ [] → lastYearDivs divs ≠ [])
    ∧ safe_dividend_yield baseInfo divs5 (some 100) = some (1 / 20) := by
  refine ⟨?_, ?_, ?_, ?_, lastYearDivs_ne_nil, ?_⟩
  · intro info divs h
    rw [safe_dividend_yield_of_no_candidate _ _ _ h]
    rfl
  · intro info divs p h hp
    rw [safe_dividend_yield_of_no_candidate _ _ _ h]
    simp [ttm_fallback, not_lt.mpr hp]
  · intro info p h
    rw [safe_dividend_yield_of_no_candidate _ _ _ h]
    simp [ttm_fallback]
  · intro info divs p h hp hd
    rw [safe_dividend_yield_of_no_candidate _ _ _ h]
    simp only [ttm_fallback, hp, if_true, ttmTotal_eq_lastYearSum divs hd]
    rw [if_neg]
    simpa [List.isEmpty_iff] using hd
  · rw [safe_dividend_yield_of_no_candidate baseInfo divs5 (some 100) rfl]
    norm_num [ttm_fallback, ttmTotal, lastYearSum, lastYearDivs, maxDate, divs5]

/-- C4 (counterexample): a fund-type instrument with a reported
expense-ratio field carrying exactly 0.0 (and no other ratio field): the
field exists, yet the surfaced Expense Ratio is missing, refuting the
claimed "exactly when ... a reported ratio field exists". -/
theorem C4_counterexample :
    quoteTypeUpper infoETFonlyZeroER = "ETF"
    ∧ hasERField infoETFonlyZeroER = true
    ∧ expense_ratio_row infoETFonlyZeroER = none := by
  refine ⟨by decide, by decide, by decide⟩

/-- C4 (amended): the Expense Ratio is surfaced as defined exactly when the
truthiness-or chain over the three ratio fields (which yields the first
truthy field, or the last field when none is truthy) results in a numeric
value; in every case — fund-type or not — the surfaced value is
`_normalize_decimal` of that pick, and nothing is defaulted or estimated. -/
theorem C4_expense_ratio_amended :
    (∀ info, expense_ratio_row info = normalize_decimal (erRaw info))
    ∧ (∀ info, (expense_ratio_row info).isSome = (erRaw info).isSome)
    ∧ expense_ratio_row infoETFwithER = some 0.0075 := by
  have key : ∀ info, expense_ratio_row info = normalize_decimal (erRaw info) := by
    intro info
    simp only [expense_ratio_row]
    split_ifs with h
    · rfl
    · cases he : erRaw info with
      | some q => rfl
      | none => rfl
  refine ⟨key, ?_, ?_⟩
  · intro info
    rw [key info, normalize_decimal_isSome]
  · rw [key]
    norm_num [erRaw, pyOr, PyVal.truthy, to_float, baseInfo, infoETFwithER,
      normalize_decimal]

/-- C10 (counterexample): a fund-type instrument whose only reported
expense-ratio value is a 0.0 in `fundExpenseRatio`, the final key of the
chain: Python's `or` returns its last operand when every operand is falsy,
so the 0.0 is picked and the Expense Ratio surfaces as 0.0, not missing. -/
theorem C10_counterexample :
    infoETFfundZero.annualReportExpenseRatio = PyVal.pynone
    ∧ infoETFfundZero.expenseRatio = PyVal.pynone
    ∧ infoETFfundZero.fundExpenseRatio = PyVal.num 0
    ∧ quoteTypeUpper infoETFfundZero = "ETF"
    ∧ expense_ratio_row infoETFfundZero = some 0 := by
  refine ⟨rfl, rfl, rfl, by decide, by decide⟩

/-- C10 (amended): a 0.0 in a non-final expense-ratio key is falsy and
skipped in favour of later keys, so an instrument whose only reported ratio
value is a 0.0 in `annualReportExpenseRatio` or `expenseRatio` gets a
missing Expense Ratio; but a 0.0 in `fundExpenseRatio`, the final key, is
returned by the `or` chain and surfaces as 0.0. -/
theorem C10_expense_ratio_truthiness_amended :
    (∀ x, pyOr (PyVal.num 0) x = x)
    ∧ (∀ info : Info, erRaw { info with annualReportExpenseRatio := PyVal.num 0 }
        = erRaw { info with annualReportExpenseRatio := PyVal.pynone })
    ∧ expense_ratio_row infoETFzero = none
    ∧ expense_ratio_row infoEquityZero = none
    ∧ expense_ratio_row infoETFfundZero = some 0 := by
  refine ⟨?_, ?_, by decide, by decide, by decide⟩
  · intro x
    simp [pyOr, PyVal.truthy]
  · intro info
    simp [erRaw, pyOr, PyVal.truthy]

/-- C6: for every environment and requested ticker list, the aggregated
fundamentals table carries exactly the columns `COLUMNS` in their fixed
order; one row per non-blank requested ticker (indexed by its normalized
form, in request order); every row carries every column (missing values are
present as the NaN sentinel, never omitted); and an empty record set yields
the empty table with the same columns. -/
theorem C6_fundamentals_table_shape (env : String → MarketData) (tickers : List String) :
    (fetch_fundamentals_many env tickers).colNames = COLUMNS
    ∧ (fetch_fundamentals_many env tickers).tableRows.map Prod.fst
        = (tickers.filter (fun t => strUpper (strStrip t) != "")).map
            (fun t => strUpper (strStrip t))
    ∧ (fetch_fundamentals_many env tickers).tableRows.length
        = (tickers.filter (fun t => strUpper (strStrip t) != "")).length
    ∧ (fetch_fundamentals_many env tickers).tableRows.map (fun r => r.2.map Prod.fst)
        = List.replicate (fetch_fundamentals_many env tickers).tableRows.length COLUMNS
    ∧ fetch_fundamentals_many env [] = FundTable.mk COLUMNS [] := by
  have hrows := fetch_many_tableRows env tickers
  have hfst : (fetch_fundamentals_many env tickers).tableRows.map Prod.fst
      = (tickers.filter (fun t => strUpper (strStrip t) != "")).map
          (fun t => strUpper (strStrip t)) := by
    rw [hrows, map_fst_of_build, records_map_fst]
  refine ⟨fetch_many_colNames env tickers, hfst, ?_, ?_, rfl⟩
  · have := congrArg List.length hfst
    simpa using this
  · rw [hrows, List.map_map, List.length_map]
    have hcomp : ((fun r : String × Row => r.2.map Prod.fst) ∘
        fun r : String × Row => (r.1, COLUMNS.map fun c => (c, rowGet r.2 c)))
        = fun r : String × Row => COLUMNS := by
      funext r
      exact map_fst_keys COLUMNS _
    rw [hcomp, map_const_replicate]

/-- C7 (spec-modelled, `src/metrics.py` absent from the repository): the
aggregator returns exactly one record per identifier other than the
benchmark, in matrix order; the benchmark never appears as a row; and an
empty price matrix yields an empty mapping. -/
theorem C7_compute_all_metrics_shape :
    (∀ pm benchmark rf, (compute_all_metrics pm benchmark rf).map Prod.fst
        = (pm.map Prod.fst).filter (fun i => i != benchmark))
    ∧ (∀ pm benchmark rf,
        ((compute_all_metrics pm benchmark rf).map Prod.fst).count benchmark = 0)
    ∧ (∀ benchmark rf, compute_all_metrics [] benchmark rf = []) := by
  have key : ∀ pm benchmark rf, (compute_all_metrics pm benchmark rf).map Prod.fst
      = (pm.map Prod.fst).filter (fun i => i != benchmark) := by
    intro pm benchmark rf
    simp only [compute_all_metrics]
    rw [map_fst_of_build, filter_map_fst]
  refine ⟨key, ?_, fun benchmark rf => rfl⟩
  intro pm benchmark rf
  rw [key pm benchmark rf, List.count_eq_zero]
  intro hmem
  rw [List.mem_filter] at hmem
  simp at hmem

end Watchlist
